import Mathlib

/-! # connman-gtk: the OpenConnect credential helper

A shallow embedding of `lib/openconnect_helper.c`:

* the classification loop of `openconnect_handle`, which sorts the entries of
  an incoming request into the `info` (known) and `required` hash tables;
* the form callback `ask_pass`, which turns a gateway form into prompts,
  calls the asker and writes the answers back;
* `show_progress` and `get_tokens`, which run one attempt and assemble the
  result.

C pointers that may be `NULL` are `Option`s.  A run that dereferences `NULL`
or reads past the end of an array has no result (`none`).
-/

namespace OpenconnectHelper

/-! ## GLib hash tables with string keys -/

/-- A `GHashTable` with string keys (`g_str_hash`, `g_str_equal`) and pointer
values.  Each key occurs at most once; the order of the list carries no
meaning. -/
abbrev GHashTable := List (String × Option String)

/-- The call `g_hash_table_insert`: the value stored under an existing key is
replaced. -/
def g_hash_table_insert (t : GHashTable) (key : String) (value : Option String) :
    GHashTable :=
  (key, value) :: t.filter (fun p => p.1 ≠ key)

/-- The call `g_hash_table_lookup`: the stored value, `NULL` when the key is
absent (or stored with a `NULL` value). -/
def g_hash_table_lookup (t : GHashTable) (key : String) : Option String :=
  match t.find? (fun p => p.1 = key) with
  | some p => p.2
  | none => none

/-- The call `g_hash_table_contains`. -/
def g_hash_table_contains (t : GHashTable) (key : String) : Bool :=
  t.any (fun p => p.1 = key)

/-! ## The classification loop of `openconnect_handle` -/

/-- One `{sv}` entry of the request parameters: the key and, from the
dictionary it carries, what `g_variant_dict_lookup_value` finds under
`"Requirement"` and under `"Value"` (`none` when the lookup gives `NULL`;
a value that is found is a string). -/
structure Entry where
  key : String
  Requirement : Option String
  Value : Option String
  deriving DecidableEq, Repr

/-- The two tables filled by the loop. -/
structure Tables where
  info : GHashTable
  required : GHashTable
  deriving DecidableEq, Repr

/-- The body of the `while` loop (lines 211-227).  With no `"Requirement"`
in the dictionary `req` is `NULL` and both branches hand it to `strcmp`: the
run has no result. -/
def classify_step (t : Tables) (e : Entry) : Option Tables :=
  match e.Requirement with
  | none => none
  | some req =>
    match e.Value with
    | some val =>
      if req = "informational" then
        some { t with info := g_hash_table_insert t.info e.key (some val) }
      else
        some t
    | none =>
      if req = "mandatory" then
        some { t with required := g_hash_table_insert t.required e.key none }
      else
        some t

/-- The loop over the request, from given tables. -/
def classify_from : Tables → List Entry → Option Tables
  | t, [] => some t
  | t, e :: rest =>
    match classify_step t e with
    | none => none
    | some t1 => classify_from t1 rest

/-- The classification loop, from the two fresh tables of lines 205-207. -/
def classify (parameters : List Entry) : Option Tables :=
  classify_from { info := [], required := [] } parameters

/-- Every entry of the request carries a requirement tag. -/
def tagged (parameters : List Entry) : Prop :=
  ∀ e ∈ parameters, e.Requirement ≠ none

instance (parameters : List Entry) : Decidable (tagged parameters) := by
  unfold tagged; infer_instance

/-- The entries of the request have pairwise distinct keys. -/
def distinct_keys (parameters : List Entry) : Prop :=
  parameters.Pairwise (fun a b => a.key ≠ b.key)

instance (parameters : List Entry) : Decidable (distinct_keys parameters) := by
  unfold distinct_keys; infer_instance

/-! ## Constants of the VPN library -/

/-- The constants of `openconnect.h` that the helper names.  The header
belongs to the VPN library, so their values are parameters here. -/
structure OcConsts where
  OC_FORM_OPT_TEXT : Int
  OC_FORM_OPT_PASSWORD : Int
  OC_FORM_OPT_SELECT : Int
  OC_FORM_OPT_TOKEN : Int
  OC_FORM_OPT_IGNORE : Nat
  OC_FORM_RESULT_OK : Int
  OC_FORM_RESULT_CANCELLED : Int
  deriving DecidableEq, Repr

/-- The four labels of the `switch` statements in `ask_pass` are pairwise
distinct, as the labels of a C `switch` are. -/
def OcConsts.cases_distinct (c : OcConsts) : Prop :=
  [c.OC_FORM_OPT_SELECT, c.OC_FORM_OPT_TEXT, c.OC_FORM_OPT_PASSWORD,
    c.OC_FORM_OPT_TOKEN].Pairwise (fun a b => a ≠ b)

instance (c : OcConsts) : Decidable c.cases_distinct := by
  unfold OcConsts.cases_distinct; infer_instance

/-- The values the constants have in the library header, used where a
concrete run is evaluated. -/
def openconnect_h : OcConsts where
  OC_FORM_OPT_TEXT := 1
  OC_FORM_OPT_PASSWORD := 2
  OC_FORM_OPT_SELECT := 3
  OC_FORM_OPT_TOKEN := 5
  OC_FORM_OPT_IGNORE := 1
  OC_FORM_RESULT_OK := 0
  OC_FORM_RESULT_CANCELLED := 1

/-- Modelled from the spec: the translation `_()` of `glib/gi18n.h`, which
is not part of this library.  The spec gives the translated label as the
message itself. -/
def gettext (msgid : String) : String := msgid

/-! ## Forms and prompts -/

/-- One choice of a selection option (`struct oc_choice`). -/
structure oc_choice where
  name : String
  label : String
  deriving DecidableEq, Repr

/-- One option of a form (`struct oc_form_opt`; for a selection option the
enclosing `struct oc_form_opt_select`, whose `nr_choices` is the length of
`choices`).  The `next` pointer is the tail of the list the option is in. -/
structure oc_form_opt where
  type : Int
  name : String
  label : Option String
  _value : Option String
  flags : Nat
  choices : List oc_choice
  deriving DecidableEq, Repr

/-- A form (`struct oc_auth_form`): its options in order. -/
structure oc_auth_form where
  opts : List oc_form_opt
  deriving DecidableEq, Repr

/-- A prompt (`struct auth_token`). -/
structure auth_token where
  list : Bool
  label : Option String
  options : Option (List String)
  hidden : Bool
  value : Option String
  deriving DecidableEq, Repr

/-- The result of `g_malloc0(sizeof(*token))`. -/
def zero_token : auth_token :=
  { list := false, label := none, options := none, hidden := false, value := none }

/-- The test `opt->flags & OC_FORM_OPT_IGNORE`. -/
def ignored (c : OcConsts) (opt : oc_form_opt) : Bool :=
  opt.flags &&& c.OC_FORM_OPT_IGNORE != 0

/-- The body of the first loop of `ask_pass` (lines 63-102): the prompt added
to `tokens` for one option, `none` when nothing is added.  In the first three
cases `token` is not `NULL`, the case labels being distinct from
`OC_FORM_OPT_TOKEN`. -/
def opt_token (c : OcConsts) (opt : oc_form_opt) : Option auth_token :=
  if ignored c opt then none
  else
    let token : Option auth_token :=
      if opt.type ≠ c.OC_FORM_OPT_TOKEN then some zero_token else none
    if opt.type = c.OC_FORM_OPT_SELECT then
      token.map fun t =>
        { t with
          list := true
          label := opt.label
          options := some (opt.choices.map fun ch => ch.label) }
    else if opt.type = c.OC_FORM_OPT_TEXT then
      token.map fun t =>
        { t with
          label := some (if opt.name = "username" then gettext "Username" else opt.name) }
    else if opt.type = c.OC_FORM_OPT_PASSWORD then
      token.map fun t =>
        { t with
          label := some (if opt.name = "password" then gettext "Password" else opt.name)
          hidden := true }
    else token

/-- The first loop of `ask_pass` (lines 62-103): the prompt array. -/
def build_tokens (c : OcConsts) : List oc_form_opt → List auth_token
  | [] => []
  | opt :: rest =>
    match opt_token c opt with
    | some token => token :: build_tokens c rest
    | none => build_tokens c rest

/-- The second loop of `ask_pass` (lines 111-127), from index `i` into the
prompt array: the options after the pass.  Reading `tokens->pdata[i]` past the
end of the array has no result. -/
def write_back (c : OcConsts) (tokens : List auth_token) :
    Nat → List oc_form_opt → Option (List oc_form_opt)
  | _, [] => some []
  | i, opt :: rest =>
    if ignored c opt then
      (write_back c tokens i rest).map fun r => opt :: r
    else if opt.type = c.OC_FORM_OPT_SELECT ∨ opt.type = c.OC_FORM_OPT_TEXT ∨
        opt.type = c.OC_FORM_OPT_PASSWORD then
      match tokens[i]? with
      | none => none
      | some token =>
        (write_back c tokens (i + 1) rest).map fun r =>
          { opt with _value := token.value } :: r
    else
      (write_back c tokens i rest).map fun r => opt :: r

/-- The asker (`token_asker`): called with the prompt array, it returns
`FALSE` to cancel or `TRUE` with the array as it has left it, the answers in
the `value` fields. -/
abbrev token_asker := List auth_token → Bool × List auth_token

/-- What a call of `ask_pass` leaves: the returned code, the form, and the
arguments of the calls made to the asker. -/
structure ask_pass_result where
  ret : Int
  form : oc_auth_form
  asked : List (List auth_token)
  deriving DecidableEq, Repr

/-- The callback `ask_pass` (lines 54-132). -/
def ask_pass (c : OcConsts) (ask_tokens : token_asker) (form : oc_auth_form) :
    Option ask_pass_result :=
  let tokens := build_tokens c form.opts
  match ask_tokens tokens with
  | (false, _) =>
    some { ret := c.OC_FORM_RESULT_CANCELLED, form := form, asked := [tokens] }
  | (true, answered) =>
    match write_back c answered 0 form.opts with
    | none => none
    | some opts =>
      some { ret := c.OC_FORM_RESULT_OK, form := { form with opts := opts },
             asked := [tokens] }

/-- The options of a form that are neither flagged ignored nor of token
kind, in order. -/
def prompted (c : OcConsts) (opts : List oc_form_opt) : List oc_form_opt :=
  opts.filter fun opt => !ignored c opt && opt.type != c.OC_FORM_OPT_TOKEN

/-- Every option of the list is of select, text, password or token kind. -/
def four_kinds (c : OcConsts) (opts : List oc_form_opt) : Prop :=
  ∀ opt ∈ opts, opt.type = c.OC_FORM_OPT_SELECT ∨ opt.type = c.OC_FORM_OPT_TEXT ∨
    opt.type = c.OC_FORM_OPT_PASSWORD ∨ opt.type = c.OC_FORM_OPT_TOKEN

instance (c : OcConsts) (opts : List oc_form_opt) : Decidable (four_kinds c opts) := by
  unfold four_kinds; infer_instance

/-- The test under which the second loop of `ask_pass` assigns a value to an
option (lines 114-123): the option is not flagged ignored and its type is one
of the three case labels that share the assignment. -/
def assigned (c : OcConsts) (opt : oc_form_opt) : Bool :=
  !ignored c opt &&
    decide (opt.type = c.OC_FORM_OPT_SELECT ∨ opt.type = c.OC_FORM_OPT_TEXT ∨
      opt.type = c.OC_FORM_OPT_PASSWORD)

/-- The options to which the second loop of `ask_pass` assigns a value, in
order. -/
def written (c : OcConsts) (opts : List oc_form_opt) : List oc_form_opt :=
  opts.filter (assigned c)

/-- The option `o1` is the option `o` but, possibly, for the value slot:
name, label, type, flags and choices are the same. -/
def same_but_value (o o1 : oc_form_opt) : Prop :=
  o1 = { o with _value := o1._value }

instance (o o1 : oc_form_opt) : Decidable (same_but_value o o1) := by
  unfold same_but_value; infer_instance

/-! ## One attempt: `show_progress` and `get_tokens` -/

/-- The state the helper shares with its callbacks during one attempt: the
global `progress` buffer, what has been printed, and the calls made to
`show_error`, each with its title and detail. -/
structure HelperState where
  progress : String
  stdout : String
  shown : List (String × String)
  deriving DecidableEq, Repr

/-- The callback `show_progress` (lines 134-145); `msg` is the message that
`g_strdup_vprintf` formats from the arguments. -/
def show_progress (s : HelperState) (_level : Int) (msg : String) : HelperState :=
  { s with stdout := s.stdout ++ msg, progress := s.progress ++ msg }

/-- The callback `invalid_cert` (lines 35-39). -/
def invalid_cert (s : HelperState) (reason : String) : HelperState × Int :=
  ({ s with stdout := s.stdout ++ reason ++ "\n" }, 0)

/-- The callback `new_config` (lines 41-44). -/
def new_config (s : HelperState) (_buf : String) : HelperState × Int :=
  (s, 0)

/-- Modelled from the spec: `show_error` is declared in `../src/util.h`,
which is not part of this library; the spec gives it as the error display
sink taking a title and a detail.  Each call is recorded. -/
def show_error (s : HelperState) (title detail : String) : HelperState :=
  { s with shown := s.shown ++ [(title, detail)] }

/-- A call the VPN library makes, while the session exists, into a callback
that acts on the state of the helper.  (Form rounds act on the form the
library owns; they are `ask_pass` above.) -/
inductive lib_call where
  | show_progress (level : Int) (msg : String)
  | invalid_cert (reason : String)
  | new_config (buf : String)
  deriving DecidableEq, Repr

/-- What the VPN library does in one attempt: the callbacks it makes, in
order, the value `openconnect_obtain_cookie` returns, and what the three
getters then return. -/
structure vpn_attempt where
  calls : List lib_call
  status : Int
  peer_cert_hash : String
  cookie : String
  hostname : String
  deriving DecidableEq, Repr

/-- The VPN library: the attempt it makes for a client certificate and a
host. -/
abbrev vpn_library := Option String → Option String → vpn_attempt

/-- One callback, run on the state. -/
def run_call (s : HelperState) : lib_call → HelperState
  | .show_progress level msg => show_progress s level msg
  | .invalid_cert reason => (invalid_cert s reason).1
  | .new_config buf => (new_config s buf).1

/-- The callbacks of an attempt, run in order. -/
def run_calls (s : HelperState) (calls : List lib_call) : HelperState :=
  calls.foldl run_call s

/-- The messages passed to `show_progress` in a sequence of callbacks, in
the order they are passed. -/
def progress_messages : List lib_call → List String
  | [] => []
  | .show_progress _ msg :: rest => msg :: progress_messages rest
  | _ :: rest => progress_messages rest

/-- A `GVariantDict` with string values. -/
abbrev GVariantDict := List (String × String)

/-- The call `g_variant_dict_insert` with format `"s"`: a value stored under
the key before is replaced. -/
def g_variant_dict_insert (d : GVariantDict) (key value : String) : GVariantDict :=
  d.filter (fun p => p.1 ≠ key) ++ [(key, value)]

/-- What a call of `get_tokens` leaves: the returned dictionary (`none` for
`NULL`), the calls made to `show_error`, and what has been printed. -/
structure get_tokens_result where
  tokens : Option GVariantDict
  shown : List (String × String)
  stdout : String
  deriving DecidableEq, Repr

/-- The function `get_tokens` (lines 147-190). -/
def get_tokens (c : OcConsts) (lib : vpn_library) (info : GHashTable) :
    get_tokens_result :=
  let s0 : HelperState := { progress := "", stdout := "", shown := [] }
  let host := g_hash_table_lookup info "Host"
  let cert := g_hash_table_lookup info "OpenConnect.ClientCert"
  let vpninfo := lib cert host
  let s1 := run_calls s0 vpninfo.calls
  let status := vpninfo.status
  if status ≠ 0 then
    let s2 :=
      if status ≠ c.OC_FORM_RESULT_CANCELLED then
        show_error s1 (gettext "Connecting to VPN failed.") s1.progress
      else s1
    { tokens := none, shown := s2.shown, stdout := s2.stdout }
  else
    let tokens : GVariantDict := []
    let tokens := g_variant_dict_insert tokens "OpenConnect.ServerCert" vpninfo.peer_cert_hash
    let tokens := g_variant_dict_insert tokens "OpenConnect.Cookie" vpninfo.cookie
    let tokens := g_variant_dict_insert tokens "OpenConnect.VPNHost" vpninfo.hostname
    { tokens := some tokens, shown := s1.shown, stdout := s1.stdout }

/-- The attempt the library makes when `get_tokens` is called with the table
`info`: it is handed the client certificate and the host found there. -/
def attempt (lib : vpn_library) (info : GHashTable) : vpn_attempt :=
  lib (g_hash_table_lookup info "OpenConnect.ClientCert") (g_hash_table_lookup info "Host")

/-- The function `openconnect_handle` (lines 192-237): the classification
loop, then `get_tokens` on the `info` table. -/
def openconnect_handle (c : OcConsts) (lib : vpn_library) (parameters : List Entry) :
    Option get_tokens_result :=
  match classify parameters with
  | none => none
  | some t => some (get_tokens c lib t.info)

/-! ## Sample inputs -/

/-- A request with a mandatory entry that carries a value. -/
def req_mandatory_value : List Entry :=
  [{ key := "Password", Requirement := some "mandatory", Value := some "hunter2" }]

/-- A request in which one key occurs first as an informational entry with a
value and then as a mandatory entry without one. -/
def req_repeated_key : List Entry :=
  [{ key := "Host", Requirement := some "informational", Value := some "vpn.example.com" },
   { key := "Host", Requirement := some "mandatory", Value := none }]

/-- The request of the scenario of the spec. -/
def req_scenario : List Entry :=
  [{ key := "Host", Requirement := some "informational", Value := some "vpn.example.com" },
   { key := "Password", Requirement := some "mandatory", Value := none }]

/-- A form whose first option has type code 4 (none of the four codes the
helper names; the hidden kind of the library header) and whose second option
is the text option `username`. -/
def form_hidden_first : oc_auth_form :=
  { opts :=
      [{ type := 4, name := "csrf", label := none, _value := some "k9", flags := 0,
         choices := [] },
       { type := 1, name := "username", label := none, _value := none, flags := 0,
         choices := [] }] }

/-- The form of the scenario of the spec: a text option `username` and a
masked option `password`. -/
def form_scenario : oc_auth_form :=
  { opts :=
      [{ type := 1, name := "username", label := none, _value := none, flags := 0,
         choices := [] },
       { type := 2, name := "password", label := none, _value := none, flags := 0,
         choices := [] }] }

/-- A selection option with two choices. -/
def opt_group : oc_form_opt :=
  { type := 3, name := "group_list", label := some "GROUP:", _value := none, flags := 0,
    choices := [{ name := "1", label := "Staff" }, { name := "2", label := "Guests" }] }

/-- An asker that answers the prompts, in order, from a list of answers. -/
def answer_with (answers : List String) : token_asker :=
  fun tokens =>
    (true, List.zipWith (fun (t : auth_token) a => { t with value := some a }) tokens answers)

/-- An asker that cancels. -/
def cancel_asker : token_asker := fun tokens => (false, tokens)

/-- A library whose attempt emits two progress messages and a certificate
warning, then ends with the given status. -/
def lib_with_status (status : Int) : vpn_library := fun _ _ =>
  { calls := [.show_progress 1 "POST https://vpn.example.com/\n",
              .invalid_cert "self signed",
              .show_progress 0 "Failed to obtain WebVPN cookie\n"],
    status := status,
    peer_cert_hash := "AB:CD", cookie := "XYZ", hostname := "vpn.example.com" }

/-- The request of the scenario with, between its two entries, an entry
whose dictionary has a `"Value"` but no `"Requirement"`. -/
def req_untagged : List Entry :=
  [{ key := "Host", Requirement := some "informational", Value := some "vpn.example.com" },
   { key := "Domain", Requirement := none, Value := some "corp" },
   { key := "Password", Requirement := some "mandatory", Value := none }]

/-- A login form with an option of type code 4 (the hidden kind of the
library header) between the text option `username` and the masked option
`password`. -/
def form_hidden_middle : oc_auth_form :=
  { opts :=
      [{ type := 1, name := "username", label := none, _value := none, flags := 0,
         choices := [] },
       { type := 4, name := "csrf", label := none, _value := some "k9", flags := 0,
         choices := [] },
       { type := 2, name := "password", label := none, _value := none, flags := 0,
         choices := [] }] }

/-- A form with an ignored text option, a token option, a selection option
and a masked option. -/
def form_mixed : oc_auth_form :=
  { opts :=
      [{ type := 1, name := "note", label := none, _value := some "n", flags := 1,
         choices := [] },
       { type := 5, name := "otp", label := none, _value := some "t", flags := 0,
         choices := [] },
       opt_group,
       { type := 2, name := "password", label := none, _value := none, flags := 0,
         choices := [] }] }

/-! ## Hash table lemmas -/

theorem contains_insert (t : GHashTable) (key : String) (value : Option String)
    (k : String) :
    g_hash_table_contains (g_hash_table_insert t key value) k = true ↔
      k = key ∨ g_hash_table_contains t k = true := by
  unfold g_hash_table_contains g_hash_table_insert
  simp only [List.any_cons, List.any_eq_true, List.mem_filter, Bool.or_eq_true,
    decide_eq_true_eq]
  constructor
  · rintro (h | ⟨p, ⟨hp, _⟩, hk⟩)
    · exact Or.inl h.symm
    · exact Or.inr ⟨p, hp, hk⟩
  · rintro (h | ⟨p, hp, hk⟩)
    · exact Or.inl h.symm
    · by_cases hkey : k = key
      · exact Or.inl hkey.symm
      · exact Or.inr ⟨p, ⟨hp, by simpa [hk] using hkey⟩, hk⟩

theorem find_filter_ne (t : GHashTable) (key k : String) (hk : k ≠ key) :
    (t.filter (fun p => p.1 ≠ key)).find? (fun p => p.1 = k) =
      t.find? (fun p => p.1 = k) := by
  induction t with
  | nil => rfl
  | cons p rest ih =>
    by_cases hp : p.1 = key
    · have hpk : ¬ p.1 = k := fun h => hk (h.symm.trans hp)
      rw [List.filter_cons_of_neg (by simpa using hp), List.find?_cons_of_neg _ (by simpa using hpk)]
      exact ih
    · rw [List.filter_cons_of_pos (by simpa using hp)]
      by_cases hpk : p.1 = k
      · rw [List.find?_cons_of_pos _ (by simpa using hpk),
          List.find?_cons_of_pos _ (by simpa using hpk)]
      · rw [List.find?_cons_of_neg _ (by simpa using hpk),
          List.find?_cons_of_neg _ (by simpa using hpk)]
        exact ih

theorem lookup_insert (t : GHashTable) (key : String) (value : Option String)
    (k : String) :
    g_hash_table_lookup (g_hash_table_insert t key value) k =
      if k = key then value else g_hash_table_lookup t k := by
  unfold g_hash_table_lookup g_hash_table_insert
  by_cases hk : k = key
  · subst hk
    simp [List.find?_cons]
  · have hne : ¬ key = k := fun h => hk h.symm
    rw [List.find?_cons_of_neg _ (by simpa using hne), find_filter_ne t key k hk, if_neg hk]

theorem lookup_eq_none_of_not_contains (t : GHashTable) (k : String)
    (h : g_hash_table_contains t k = false) : g_hash_table_lookup t k = none := by
  unfold g_hash_table_lookup
  unfold g_hash_table_contains at h
  have : t.find? (fun p => decide (p.1 = k)) = none := by
    rw [List.find?_eq_none]
    intro p hp hpk
    have : t.any (fun p => decide (p.1 = k)) = true :=
      List.any_eq_true.mpr ⟨p, hp, hpk⟩
    rw [h] at this
    exact Bool.noConfusion this
  rw [this]

/-! ## Lemmas on the classification loop -/

/-- An entry that carries a requirement tag is processed. -/
theorem classify_step_tagged (t : Tables) (e : Entry) (h : e.Requirement ≠ none) :
    ∃ t1, classify_step t e = some t1 := by
  unfold classify_step
  cases hr : e.Requirement with
  | none => exact absurd hr h
  | some req =>
    cases e.Value with
    | none => by_cases hm : req = "mandatory" <;> simp [hm]
    | some val => by_cases hi : req = "informational" <;> simp [hi]

/-- The loop completes on a request whose entries all carry a tag. -/
theorem classify_from_tagged (ps : List Entry) :
    ∀ t : Tables, tagged ps → ∃ t1, classify_from t ps = some t1 := by
  induction ps with
  | nil => intro t _; exact ⟨t, rfl⟩
  | cons e rest ih =>
    intro t h
    obtain ⟨t1, h1⟩ := classify_step_tagged t e (h e (List.mem_cons_self _ _))
    obtain ⟨t2, h2⟩ := ih t1 (fun x hx => h x (List.mem_cons_of_mem _ hx))
    exact ⟨t2, by simp [classify_from, h1, h2]⟩

/-- The keys of the `required` table after one entry. -/
theorem step_required (t t1 : Tables) (e : Entry) (h : classify_step t e = some t1)
    (k : String) :
    g_hash_table_contains t1.required k = true ↔
      g_hash_table_contains t.required k = true ∨
        (e.key = k ∧ e.Requirement = some "mandatory" ∧ e.Value = none) := by
  unfold classify_step at h
  cases hr : e.Requirement with
  | none => simp [hr] at h
  | some req =>
    cases hv : e.Value with
    | some val =>
      by_cases hi : req = "informational" <;> simp [hr, hv, hi] at h <;> subst h <;> simp
    | none =>
      by_cases hm : req = "mandatory"
      · simp [hr, hv, hm] at h
        subst h
        simp only [contains_insert, hm]
        constructor
        · rintro (h | h)
          · exact Or.inr ⟨h.symm, trivial, trivial⟩
          · exact Or.inl h
        · rintro (h | ⟨h, _, _⟩)
          · exact Or.inr h
          · exact Or.inl h.symm
      · simp [hr, hv, hm] at h
        subst h
        simp [hm]

/-- The keys of the `info` table after one entry. -/
theorem step_info (t t1 : Tables) (e : Entry) (h : classify_step t e = some t1)
    (k : String) :
    g_hash_table_contains t1.info k = true ↔
      g_hash_table_contains t.info k = true ∨
        (e.key = k ∧ e.Requirement = some "informational" ∧ e.Value ≠ none) := by
  unfold classify_step at h
  cases hr : e.Requirement with
  | none => simp [hr] at h
  | some req =>
    cases hv : e.Value with
    | none =>
      by_cases hm : req = "mandatory" <;> simp [hr, hv, hm] at h <;> subst h <;> simp
    | some val =>
      by_cases hi : req = "informational"
      · simp [hr, hv, hi] at h
        subst h
        simp only [contains_insert, hi]
        constructor
        · rintro (h | h)
          · exact Or.inr ⟨h.symm, trivial, by simp⟩
          · exact Or.inl h
        · rintro (h | ⟨h, _, _⟩)
          · exact Or.inr h
          · exact Or.inl h.symm
      · simp [hr, hv, hi] at h
        subst h
        simp [hi]

/-- The keys of the `required` table after the loop. -/
theorem loop_required (ps : List Entry) :
    ∀ (t t1 : Tables), classify_from t ps = some t1 → ∀ k : String,
      (g_hash_table_contains t1.required k = true ↔
        g_hash_table_contains t.required k = true ∨
          ∃ e ∈ ps, e.key = k ∧ e.Requirement = some "mandatory" ∧ e.Value = none) := by
  induction ps with
  | nil =>
    intro t t1 h k
    simp [classify_from] at h
    subst h
    simp
  | cons e rest ih =>
    intro t t1 h k
    unfold classify_from at h
    cases hs : classify_step t e with
    | none => simp [hs] at h
    | some t2 =>
      simp only [hs] at h
      rw [ih t2 t1 h k, step_required t t2 e hs k]
      simp only [List.mem_cons, exists_eq_or_imp, or_assoc]

/-- The keys of the `info` table after the loop. -/
theorem loop_info (ps : List Entry) :
    ∀ (t t1 : Tables), classify_from t ps = some t1 → ∀ k : String,
      (g_hash_table_contains t1.info k = true ↔
        g_hash_table_contains t.info k = true ∨
          ∃ e ∈ ps, e.key = k ∧ e.Requirement = some "informational" ∧ e.Value ≠ none) := by
  induction ps with
  | nil =>
    intro t t1 h k
    simp [classify_from] at h
    subst h
    simp
  | cons e rest ih =>
    intro t t1 h k
    unfold classify_from at h
    cases hs : classify_step t e with
    | none => simp [hs] at h
    | some t2 =>
      simp only [hs] at h
      rw [ih t2 t1 h k, step_info t t2 e hs k]
      simp only [List.mem_cons, exists_eq_or_imp, or_assoc]

/-- The value found in the `info` table after one entry. -/
theorem step_lookup (t t1 : Tables) (e : Entry) (h : classify_step t e = some t1)
    (k : String) :
    g_hash_table_lookup t1.info k =
      if e.key = k ∧ e.Requirement = some "informational" ∧ e.Value ≠ none then e.Value
      else g_hash_table_lookup t.info k := by
  unfold classify_step at h
  cases hr : e.Requirement with
  | none => simp [hr] at h
  | some req =>
    cases hv : e.Value with
    | none =>
      by_cases hm : req = "mandatory" <;> simp [hr, hv, hm] at h <;> subst h <;> simp
    | some val =>
      by_cases hi : req = "informational"
      · simp [hr, hv, hi] at h
        subst h
        rw [lookup_insert]
        by_cases hk : k = e.key
        · simp [hk, hi]
        · have hk2 : ¬ e.key = k := fun h => hk h.symm
          simp [hk, hk2]
      · simp [hr, hv, hi] at h
        subst h
        simp [hi]

/-- Two entries of a request with distinct keys that have the same key are
the same entry. -/
theorem eq_of_key_eq (ps : List Entry) (hd : distinct_keys ps) (a b : Entry)
    (ha : a ∈ ps) (hb : b ∈ ps) (hk : a.key = b.key) : a = b := by
  by_contra hne
  have hsym : Symmetric (fun x y : Entry => x.key ≠ y.key) :=
    fun _ _ hxy hyx => hxy hyx.symm
  exact (List.Pairwise.forall hsym hd ha hb hne) hk

/-- The values of the `info` table after the loop, for a request with
distinct keys none of which is in the table at the start. -/
theorem loop_lookup (ps : List Entry) :
    ∀ (t t1 : Tables), distinct_keys ps → classify_from t ps = some t1 →
      (∀ e ∈ ps, g_hash_table_contains t.info e.key = false) →
      ∀ (k v : String),
        (g_hash_table_lookup t1.info k = some v ↔
          g_hash_table_lookup t.info k = some v ∨
            ∃ e ∈ ps, e.key = k ∧ e.Requirement = some "informational" ∧
              e.Value = some v) := by
  induction ps with
  | nil =>
    intro t t1 _ h _ k v
    simp [classify_from] at h
    subst h
    simp
  | cons e rest ih =>
    intro t t1 hd h hfresh k v
    unfold classify_from at h
    cases hs : classify_step t e with
    | none => simp [hs] at h
    | some t2 =>
      simp only [hs] at h
      have hd2 : distinct_keys rest := (List.pairwise_cons.mp hd).2
      have hne : ∀ x ∈ rest, e.key ≠ x.key := (List.pairwise_cons.mp hd).1
      have hfresh2 : ∀ x ∈ rest, g_hash_table_contains t2.info x.key = false := by
        intro x hx
        cases hc : g_hash_table_contains t2.info x.key with
        | false => rfl
        | true =>
          rcases (step_info t t2 e hs x.key).mp hc with h1 | ⟨h1, _, _⟩
          · rw [hfresh x (List.mem_cons_of_mem _ hx)] at h1
            exact Bool.noConfusion h1
          · exact absurd h1 (hne x hx)
      rw [ih t2 t1 hd2 h hfresh2 k v, step_lookup t t2 e hs k]
      simp only [List.mem_cons, exists_eq_or_imp]
      by_cases hc : e.key = k ∧ e.Requirement = some "informational" ∧ e.Value ≠ none
      · have hnone : g_hash_table_lookup t.info k = none := by
          rw [← hc.1]
          exact lookup_eq_none_of_not_contains _ _ (hfresh e (List.mem_cons_self _ _))
        rw [if_pos hc, hnone]
        simp [hc.1, hc.2.1]
      · rw [if_neg hc]
        have : ¬ (e.key = k ∧ e.Requirement = some "informational" ∧ e.Value = some v) := by
          rintro ⟨h1, h2, h3⟩
          exact hc ⟨h1, h2, by simp [h3]⟩
        simp [this]

/-! ## The classification loop: theorems -/

/-- C1, as the code has it: for a request whose entries all carry a
requirement tag the loop completes, and the Required table then holds
exactly the keys of the entries tagged "mandatory" that carry no value; in
particular the key of every mandatory entry without a value is in it. -/
theorem C1_required_iff_mandatory_without_value (parameters : List Entry)
    (ht : tagged parameters) :
    ∃ t, classify parameters = some t ∧
      ∀ k : String,
        (g_hash_table_contains t.required k = true ↔
          ∃ e ∈ parameters, e.key = k ∧ e.Requirement = some "mandatory" ∧
            e.Value = none) := by
  obtain ⟨t, h⟩ := classify_from_tagged parameters { info := [], required := [] } ht
  refine ⟨t, h, fun k => ?_⟩
  rw [loop_required parameters _ t h k]
  simp [g_hash_table_contains]

/-- C1 witness: the request of the scenario. -/
theorem C1_required_iff_mandatory_without_value_witness :
    tagged req_scenario ∧
      ∃ t, classify req_scenario = some t ∧
        ∀ k : String,
          (g_hash_table_contains t.required k = true ↔
            ∃ e ∈ req_scenario, e.key = k ∧ e.Requirement = some "mandatory" ∧
              e.Value = none) :=
  ⟨by decide, C1_required_iff_mandatory_without_value req_scenario (by decide)⟩

/-- C1 fails as stated: the request with the single entry
`Password`, tagged "mandatory" and carrying the value "hunter2", is
classified with the key `Password` absent from the Required table. -/
theorem C1_mandatory_with_value_not_required :
    ∃ e ∈ req_mandatory_value, e.Requirement = some "mandatory" ∧
      ∃ t, classify req_mandatory_value = some t ∧
        g_hash_table_contains t.required e.key = false :=
  ⟨{ key := "Password", Requirement := some "mandatory", Value := some "hunter2" },
    by decide, by decide, { info := [], required := [] }, by decide, by decide⟩

/-- C2: for a request whose entries have pairwise distinct keys (each
carrying a requirement tag) the loop completes, and afterwards the Known
table maps k to v exactly when the request has an entry with key k, tag
"informational" and value v; the key of an informational entry without a
value is not in the Known table. -/
theorem C2_known_iff_informational_with_value (parameters : List Entry)
    (hd : distinct_keys parameters) (ht : tagged parameters) :
    ∃ t, classify parameters = some t ∧
      (∀ k v : String,
        (g_hash_table_lookup t.info k = some v ↔
          ∃ e ∈ parameters, e.key = k ∧ e.Requirement = some "informational" ∧
            e.Value = some v)) ∧
      (∀ e ∈ parameters, e.Requirement = some "informational" → e.Value = none →
        g_hash_table_contains t.info e.key = false) := by
  obtain ⟨t, h⟩ := classify_from_tagged parameters { info := [], required := [] } ht
  refine ⟨t, h, fun k v => ?_, fun e he _ hv => ?_⟩
  · rw [loop_lookup parameters _ t hd h (fun _ _ => rfl) k v]
    simp [g_hash_table_lookup]
  · cases hc : g_hash_table_contains t.info e.key with
    | false => rfl
    | true =>
      rcases (loop_info parameters _ t h e.key).mp hc with h1 | ⟨x, hx, hk, _, hval⟩
      · simp [g_hash_table_contains] at h1
      · have hxe : x = e := eq_of_key_eq parameters hd x e hx he hk
        rw [hxe] at hval
        exact absurd hv hval

/-- C2 witness: the request of the scenario. -/
theorem C2_known_iff_informational_with_value_witness :
    distinct_keys req_scenario ∧ tagged req_scenario ∧
      ∃ t, classify req_scenario = some t ∧
        (∀ k v : String,
          (g_hash_table_lookup t.info k = some v ↔
            ∃ e ∈ req_scenario, e.key = k ∧ e.Requirement = some "informational" ∧
              e.Value = some v)) ∧
        (∀ e ∈ req_scenario, e.Requirement = some "informational" → e.Value = none →
          g_hash_table_contains t.info e.key = false) :=
  ⟨by decide, by decide,
    C2_known_iff_informational_with_value req_scenario (by decide) (by decide)⟩

/-- C3: an entry whose requirement tag is neither "mandatory" nor
"informational", with or without a value, is processed with both tables
left exactly as they were; the loop over a request containing it ends as
the loop over the request without it. -/
theorem C3_other_tag_leaves_tables (e : Entry) (req : String)
    (hr : e.Requirement = some req) (hm : req ≠ "mandatory")
    (hi : req ≠ "informational") :
    (∀ t : Tables, classify_step t e = some t) ∧
      ∀ (t : Tables) (before after : List Entry),
        classify_from t (before ++ e :: after) = classify_from t (before ++ after) := by
  have hstep : ∀ t : Tables, classify_step t e = some t := by
    intro t
    unfold classify_step
    rw [hr]
    cases e.Value <;> simp [hm, hi]
  refine ⟨hstep, fun t before after => ?_⟩
  induction before generalizing t with
  | nil => simp [classify_from, hstep]
  | cons x rest ih =>
    simp only [List.cons_append, classify_from]
    cases classify_step t x with
    | none => rfl
    | some t2 => exact ih t2

/-- C3 witness: an entry tagged "optional" that carries a value. -/
theorem C3_other_tag_leaves_tables_witness :
    (∀ t : Tables,
      classify_step t { key := "Domain", Requirement := some "optional", Value := some "x" }
        = some t) ∧
      ∀ (t : Tables) (before after : List Entry),
        classify_from t
            (before ++
              { key := "Domain", Requirement := some "optional", Value := some "x" } :: after)
          = classify_from t (before ++ after) :=
  C3_other_tag_leaves_tables
    { key := "Domain", Requirement := some "optional", Value := some "x" } "optional" rfl
    (by decide) (by decide)

/-- C10, as the code has it: for a request whose entries have pairwise
distinct keys (each carrying a requirement tag) the loop completes and no
key is in both the Known table and the Required table. -/
theorem C10_tables_disjoint_of_distinct_keys (parameters : List Entry)
    (hd : distinct_keys parameters) (ht : tagged parameters) :
    ∃ t, classify parameters = some t ∧
      ∀ k : String,
        ¬ (g_hash_table_contains t.info k = true ∧
            g_hash_table_contains t.required k = true) := by
  obtain ⟨t, h⟩ := classify_from_tagged parameters { info := [], required := [] } ht
  refine ⟨t, h, ?_⟩
  rintro k ⟨hi, hr⟩
  rcases (loop_info parameters _ t h k).mp hi with h1 | ⟨x, hx, hxk, _, hxv⟩
  · simp [g_hash_table_contains] at h1
  · rcases (loop_required parameters _ t h k).mp hr with h2 | ⟨y, hy, hyk, _, hyv⟩
    · simp [g_hash_table_contains] at h2
    · have hxy : x = y := eq_of_key_eq parameters hd x y hx hy (hxk.trans hyk.symm)
      rw [hxy] at hxv
      exact hxv hyv

/-- C10 witness: the request of the scenario. -/
theorem C10_tables_disjoint_of_distinct_keys_witness :
    distinct_keys req_scenario ∧ tagged req_scenario ∧
      ∃ t, classify req_scenario = some t ∧
        ∀ k : String,
          ¬ (g_hash_table_contains t.info k = true ∧
              g_hash_table_contains t.required k = true) :=
  ⟨by decide, by decide,
    C10_tables_disjoint_of_distinct_keys req_scenario (by decide) (by decide)⟩

/-- C10 fails as stated: in the request where the key `Host` occurs first as
an informational entry with a value and then as a mandatory entry without
one, the loop leaves `Host` in both the Known and the Required table. -/
theorem C10_repeated_key_in_both_tables :
    ∃ t, classify req_repeated_key = some t ∧
      g_hash_table_contains t.info "Host" = true ∧
      g_hash_table_contains t.required "Host" = true :=
  ⟨{ info := [("Host", some "vpn.example.com")], required := [("Host", none)] },
    by decide, by decide, by decide⟩

/-! ## The form callback: theorems -/

/-- The six inequalities between the case labels. -/
theorem cases_distinct_iff (c : OcConsts) :
    c.cases_distinct ↔
      c.OC_FORM_OPT_SELECT ≠ c.OC_FORM_OPT_TEXT ∧
      c.OC_FORM_OPT_SELECT ≠ c.OC_FORM_OPT_PASSWORD ∧
      c.OC_FORM_OPT_SELECT ≠ c.OC_FORM_OPT_TOKEN ∧
      c.OC_FORM_OPT_TEXT ≠ c.OC_FORM_OPT_PASSWORD ∧
      c.OC_FORM_OPT_TEXT ≠ c.OC_FORM_OPT_TOKEN ∧
      c.OC_FORM_OPT_PASSWORD ≠ c.OC_FORM_OPT_TOKEN := by
  simp [OcConsts.cases_distinct]
  tauto

/-- C4 at a failing input: with the constants of the library header, the
form whose first option has type code 4 and initial value "k9" and whose
second option is the text option `username`, and an asker that answers the
two prompts built from it with "x" and "alice", `ask_pass` returns the OK
code having left "k9" in the first option and written "x", the answer to the
first prompt, into `username`; the claim has "x" and "alice" there. -/
theorem C4_hidden_option_shifts_answers :
    (build_tokens openconnect_h form_hidden_first.opts).length = 2 ∧
      (prompted openconnect_h form_hidden_first.opts).length = 2 ∧
      ∃ r, ask_pass openconnect_h (answer_with ["x", "alice"]) form_hidden_first = some r ∧
        r.ret = openconnect_h.OC_FORM_RESULT_OK ∧
        (prompted openconnect_h r.form.opts).map (fun opt => opt._value) =
          [some "k9", some "x"] ∧
        (prompted openconnect_h r.form.opts).map (fun opt => opt._value) ≠
          [some "x", some "alice"] :=
  ⟨rfl, rfl, _, rfl, rfl, rfl, by decide⟩

/-- C5: for an option that is not flagged ignored, a text option gets a
prompt that is not hidden, labelled "Username" when its name is exactly
"username" and with its raw name otherwise; a password option gets a hidden
prompt, labelled "Password" when its name is exactly "password" and with its
raw name otherwise. -/
theorem C5_text_and_password_labels (c : OcConsts) (hc : c.cases_distinct)
    (opt : oc_form_opt) (hi : ignored c opt = false) :
    (opt.type = c.OC_FORM_OPT_TEXT →
      ∃ t, opt_token c opt = some t ∧ t.hidden = false ∧ t.list = false ∧
        t.label = some (if opt.name = "username" then "Username" else opt.name)) ∧
    (opt.type = c.OC_FORM_OPT_PASSWORD →
      ∃ t, opt_token c opt = some t ∧ t.hidden = true ∧ t.list = false ∧
        t.label = some (if opt.name = "password" then "Password" else opt.name)) := by
  obtain ⟨hst, hsp, _, htp, htk, hpk⟩ := (cases_distinct_iff c).mp hc
  constructor
  · intro ht
    have h1 : ¬ c.OC_FORM_OPT_TEXT = c.OC_FORM_OPT_SELECT := fun h => hst h.symm
    simp [opt_token, hi, ht, htk, h1, zero_token, gettext]
  · intro hp
    have h1 : ¬ c.OC_FORM_OPT_PASSWORD = c.OC_FORM_OPT_SELECT := fun h => hsp h.symm
    have h2 : ¬ c.OC_FORM_OPT_PASSWORD = c.OC_FORM_OPT_TEXT := fun h => htp h.symm
    simp [opt_token, hi, hp, hpk, h1, h2, zero_token, gettext]

/-- C5 witness: the `username` option of the scenario, with the constants of
the library header. -/
theorem C5_text_and_password_labels_witness :
    openconnect_h.cases_distinct ∧
      ignored openconnect_h
        { type := 1, name := "username", label := none, _value := none, flags := 0,
          choices := [] } = false ∧
      ∃ t, opt_token openconnect_h
          { type := 1, name := "username", label := none, _value := none, flags := 0,
            choices := [] } = some t ∧
        t.hidden = false ∧ t.list = false ∧ t.label = some "Username" :=
  ⟨by decide, rfl,
    (C5_text_and_password_labels openconnect_h (by decide)
      { type := 1, name := "username", label := none, _value := none, flags := 0,
        choices := [] } rfl).1 rfl⟩

/-- C6: a selection option that is not flagged ignored, with any number N
of choices, gets a list prompt whose label is the label of the option and
whose choices list has exactly N entries, the j-th being the label of the
j-th choice of the option. -/
theorem C6_select_prompt (c : OcConsts) (hc : c.cases_distinct) (opt : oc_form_opt)
    (hi : ignored c opt = false) (hs : opt.type = c.OC_FORM_OPT_SELECT) :
    ∃ t l, opt_token c opt = some t ∧ t.list = true ∧ t.label = opt.label ∧
      t.options = some l ∧ l.length = opt.choices.length ∧
      ∀ j : Nat, l[j]? = (opt.choices[j]?).map (fun ch => ch.label) := by
  obtain ⟨_, _, hsk, _⟩ := (cases_distinct_iff c).mp hc
  refine ⟨{ zero_token with
            list := true
            label := opt.label
            options := some (opt.choices.map fun ch => ch.label) },
    opt.choices.map (fun ch => ch.label), ?_, ?_, ?_, ?_, ?_, ?_⟩
  · simp [opt_token, hi, hs, hsk]
  · rfl
  · rfl
  · rfl
  · simp
  · intro j
    simp

/-- C6 witness: a selection option with two choices, with the constants of
the library header. -/
theorem C6_select_prompt_witness :
    openconnect_h.cases_distinct ∧ ignored openconnect_h opt_group = false ∧
      opt_group.type = openconnect_h.OC_FORM_OPT_SELECT ∧
      ∃ t l, opt_token openconnect_h opt_group = some t ∧ t.list = true ∧
        t.label = opt_group.label ∧ t.options = some l ∧
        l.length = opt_group.choices.length ∧
        ∀ j : Nat, l[j]? = (opt_group.choices[j]?).map (fun ch => ch.label) :=
  ⟨by decide, rfl, rfl, C6_select_prompt openconnect_h (by decide) opt_group rfl rfl⟩

/-- With distinct case labels, the first loop builds a prompt exactly for
the options that are neither flagged ignored nor of token kind. -/
theorem opt_token_isSome (c : OcConsts) (hc : c.cases_distinct) (opt : oc_form_opt) :
    (opt_token c opt).isSome = (!ignored c opt && opt.type != c.OC_FORM_OPT_TOKEN) := by
  obtain ⟨_, _, hsk, _, htk, hpk⟩ := (cases_distinct_iff c).mp hc
  cases hi : ignored c opt with
  | true => simp [opt_token, hi]
  | false =>
    by_cases hk : opt.type = c.OC_FORM_OPT_TOKEN
    · have h1 : ¬ c.OC_FORM_OPT_TOKEN = c.OC_FORM_OPT_SELECT := fun h => hsk h.symm
      have h2 : ¬ c.OC_FORM_OPT_TOKEN = c.OC_FORM_OPT_TEXT := fun h => htk h.symm
      have h3 : ¬ c.OC_FORM_OPT_TOKEN = c.OC_FORM_OPT_PASSWORD := fun h => hpk h.symm
      simp [opt_token, hi, hk, h1, h2, h3]
    · simp only [opt_token, hi, Bool.false_eq_true, if_false, ne_eq, hk, not_false_eq_true,
        if_true, Option.map_some']
      split
      · simp [hk]
      · split
        · simp [hk]
        · split <;> simp [hk]

/-- With distinct case labels, the prompt array has one prompt for each
option that is neither flagged ignored nor of token kind. -/
theorem build_tokens_length (c : OcConsts) (hc : c.cases_distinct)
    (opts : List oc_form_opt) :
    (build_tokens c opts).length = (prompted c opts).length := by
  induction opts with
  | nil => rfl
  | cons opt rest ih =>
    have h := opt_token_isSome c hc opt
    unfold build_tokens prompted
    cases ht : opt_token c opt with
    | none =>
      rw [ht] at h
      have h2 : (!ignored c opt && opt.type != c.OC_FORM_OPT_TOKEN) = false := by
        simpa using h.symm
      simp only [List.filter_cons, h2, Bool.false_eq_true, if_false]
      exact ih
    | some token =>
      rw [ht] at h
      have h2 : (!ignored c opt && opt.type != c.OC_FORM_OPT_TOKEN) = true := by
        simpa using h.symm
      simp only [List.filter_cons, h2, if_true, List.length_cons]
      exact congrArg (· + 1) ih

/-- On a form whose options are all of the four kinds, with distinct case
labels, the second loop started at index `i` succeeds when the array holds
enough prompts, and leaves in the options that are neither ignored nor of
token kind, in order, the values of the prompts from index `i` on. -/
theorem write_back_four_kinds (c : OcConsts) (hc : c.cases_distinct)
    (tokens : List auth_token) (opts : List oc_form_opt) :
    ∀ i : Nat, four_kinds c opts → i + (prompted c opts).length ≤ tokens.length →
      ∃ opts1, write_back c tokens i opts = some opts1 ∧
        (prompted c opts1).map (fun opt => opt._value) =
          ((tokens.drop i).take (prompted c opts).length).map (fun t => t.value) := by
  obtain ⟨_, _, hsk, _, htk, hpk⟩ := (cases_distinct_iff c).mp hc
  induction opts with
  | nil => intro i _ _; exact ⟨[], rfl, by simp [prompted]⟩
  | cons opt rest ih =>
    intro i h4 hlen
    have h4r : four_kinds c rest := fun x hx => h4 x (List.mem_cons_of_mem _ hx)
    have hopt := h4 opt (List.mem_cons_self _ _)
    cases hi : ignored c opt with
    | true =>
      have hp : prompted c (opt :: rest) = prompted c rest := by
        simp [prompted, hi]
      rw [hp] at hlen ⊢
      obtain ⟨r, hr, hv⟩ := ih i h4r hlen
      refine ⟨opt :: r, by simp [write_back, hi, hr], ?_⟩
      have hp2 : prompted c (opt :: r) = prompted c r := by simp [prompted, hi]
      rw [hp2, hv]
    | false =>
      by_cases hk : opt.type = c.OC_FORM_OPT_TOKEN
      · have h1 : ¬ c.OC_FORM_OPT_TOKEN = c.OC_FORM_OPT_SELECT := fun h => hsk h.symm
        have h2 : ¬ c.OC_FORM_OPT_TOKEN = c.OC_FORM_OPT_TEXT := fun h => htk h.symm
        have h3 : ¬ c.OC_FORM_OPT_TOKEN = c.OC_FORM_OPT_PASSWORD := fun h => hpk h.symm
        have hp : prompted c (opt :: rest) = prompted c rest := by
          simp [prompted, hi, hk]
        rw [hp] at hlen ⊢
        obtain ⟨r, hr, hv⟩ := ih i h4r hlen
        refine ⟨opt :: r, by simp [write_back, hi, hk, h1, h2, h3, hr], ?_⟩
        have hp2 : prompted c (opt :: r) = prompted c r := by simp [prompted, hi, hk]
        rw [hp2, hv]
      · have hstp : opt.type = c.OC_FORM_OPT_SELECT ∨ opt.type = c.OC_FORM_OPT_TEXT ∨
            opt.type = c.OC_FORM_OPT_PASSWORD := by
          rcases hopt with h | h | h | h
          · exact Or.inl h
          · exact Or.inr (Or.inl h)
          · exact Or.inr (Or.inr h)
          · exact absurd h hk
        have hp : prompted c (opt :: rest) = opt :: prompted c rest := by
          simp [prompted, hi, hk]
        rw [hp] at hlen ⊢
        simp only [List.length_cons] at hlen ⊢
        have hlt : i < tokens.length := by omega
        obtain ⟨r, hr, hv⟩ := ih (i + 1) h4r (by omega)
        refine ⟨{ opt with _value := (tokens[i]).value } :: r, ?_, ?_⟩
        · simp only [write_back, hi, Bool.false_eq_true, if_false, if_pos hstp,
            List.getElem?_eq_getElem hlt, hr, Option.map_some']
        · have hi2 : ignored c { opt with _value := (tokens[i]).value } = false := hi
          have hp2 : prompted c ({ opt with _value := (tokens[i]).value } :: r) =
              { opt with _value := (tokens[i]).value } :: prompted c r := by
            simp [prompted, hi2, hk]
          rw [hp2, List.map_cons, hv, List.drop_eq_getElem_cons hlt, List.take_succ_cons,
            List.map_cons]

/-- On a form whose options are all of the four kinds, with distinct case
labels, when the asker returns TRUE with an array as long as the prompt
array, `ask_pass` returns the OK code and the options that are neither
ignored nor of token kind hold, in order, the values of the array. -/
theorem ask_pass_four_kinds (c : OcConsts) (hc : c.cases_distinct)
    (ask_tokens : token_asker) (form : oc_auth_form) (answered : List auth_token)
    (h4 : four_kinds c form.opts)
    (ha : ask_tokens (build_tokens c form.opts) = (true, answered))
    (hlen : answered.length = (build_tokens c form.opts).length) :
    ∃ r, ask_pass c ask_tokens form = some r ∧ r.ret = c.OC_FORM_RESULT_OK ∧
      (prompted c r.form.opts).map (fun opt => opt._value) =
        answered.map (fun t => t.value) := by
  rw [build_tokens_length c hc] at hlen
  obtain ⟨opts1, hw, hv⟩ :=
    write_back_four_kinds c hc answered form.opts 0 h4 (by omega)
  refine ⟨{ ret := c.OC_FORM_RESULT_OK, form := { form with opts := opts1 },
            asked := [build_tokens c form.opts] }, ?_, rfl, ?_⟩
  · simp only [ask_pass, ha, hw]
  · simp only [hv, List.drop_zero, ← hlen, List.take_length]

/-! ## One attempt: theorems -/

/-- No callback of the library calls `show_error`. -/
theorem run_calls_shown (calls : List lib_call) :
    ∀ s : HelperState, (run_calls s calls).shown = s.shown := by
  induction calls with
  | nil => intro s; rfl
  | cons call rest ih =>
    intro s
    have h : run_calls s (call :: rest) = run_calls (run_call s call) rest := rfl
    rw [h, ih]
    cases call <;> rfl

/-- The `progress` buffer after the callbacks: the messages passed to
`show_progress`, appended in order to what it held. -/
theorem run_calls_progress (calls : List lib_call) :
    ∀ s : HelperState,
      (run_calls s calls).progress =
        (progress_messages calls).foldl (fun r m => r ++ m) s.progress := by
  induction calls with
  | nil => intro s; rfl
  | cons call rest ih =>
    intro s
    have h : run_calls s (call :: rest) = run_calls (run_call s call) rest := rfl
    rw [h, ih]
    cases call <;> rfl

/-- C7: when the asker returns FALSE, `ask_pass` returns the cancelled
sentinel; and when the status of the handshake is that sentinel (which is
not zero), `get_tokens` returns `NULL` and makes no call to `show_error`. -/
theorem C7_cancelled_is_silent (c : OcConsts) (h0 : c.OC_FORM_RESULT_CANCELLED ≠ 0) :
    (∀ (ask_tokens : token_asker) (form : oc_auth_form),
      (ask_tokens (build_tokens c form.opts)).1 = false →
        ∃ r, ask_pass c ask_tokens form = some r ∧
          r.ret = c.OC_FORM_RESULT_CANCELLED) ∧
    (∀ (lib : vpn_library) (info : GHashTable),
      (attempt lib info).status = c.OC_FORM_RESULT_CANCELLED →
        (get_tokens c lib info).tokens = none ∧ (get_tokens c lib info).shown = []) := by
  constructor
  · intro ask_tokens form h
    cases ha : ask_tokens (build_tokens c form.opts) with
    | mk b answered =>
      rw [ha] at h
      simp only at h
      subst h
      refine ⟨{ ret := c.OC_FORM_RESULT_CANCELLED, form := form,
                asked := [build_tokens c form.opts] }, ?_, rfl⟩
      simp only [ask_pass, ha]
  · intro lib info h
    have h1 : (lib (g_hash_table_lookup info "OpenConnect.ClientCert")
        (g_hash_table_lookup info "Host")).status = c.OC_FORM_RESULT_CANCELLED := h
    simp [get_tokens, h1, h0, run_calls_shown]

/-- C7 witness: the constants of the library header, a cancelling asker on
the form of the scenario, and an attempt ending with status 1. -/
theorem C7_cancelled_is_silent_witness :
    openconnect_h.OC_FORM_RESULT_CANCELLED ≠ 0 ∧
      (∃ r, ask_pass openconnect_h cancel_asker form_scenario = some r ∧
        r.ret = openconnect_h.OC_FORM_RESULT_CANCELLED) ∧
      (get_tokens openconnect_h (lib_with_status 1) []).tokens = none ∧
      (get_tokens openconnect_h (lib_with_status 1) []).shown = [] :=
  ⟨by decide,
    (C7_cancelled_is_silent openconnect_h (by decide)).1 cancel_asker form_scenario rfl,
    (C7_cancelled_is_silent openconnect_h (by decide)).2 (lib_with_status 1) [] rfl⟩

/-- C8: when the status of the handshake is neither zero nor the cancelled
sentinel, `get_tokens` returns `NULL` and calls `show_error` exactly once,
with the title "Connecting to VPN failed." and, as detail, the messages
passed to `show_progress` during the attempt, concatenated in the order
they were passed. -/
theorem C8_failure_shows_progress (c : OcConsts) (lib : vpn_library) (info : GHashTable)
    (hs : (attempt lib info).status ≠ 0)
    (hc : (attempt lib info).status ≠ c.OC_FORM_RESULT_CANCELLED) :
    (get_tokens c lib info).tokens = none ∧
      (get_tokens c lib info).shown =
        [("Connecting to VPN failed.",
          String.join (progress_messages (attempt lib info).calls))] := by
  have hs1 : ¬ (lib (g_hash_table_lookup info "OpenConnect.ClientCert")
      (g_hash_table_lookup info "Host")).status = 0 := hs
  have hc1 : ¬ (lib (g_hash_table_lookup info "OpenConnect.ClientCert")
      (g_hash_table_lookup info "Host")).status = c.OC_FORM_RESULT_CANCELLED := hc
  simp only [get_tokens, ne_eq, hs1, hc1, not_false_eq_true, if_true, show_error,
    run_calls_shown, run_calls_progress, gettext, String.join, attempt]
  exact ⟨trivial, rfl⟩

/-- C8 witness: an attempt that emits two progress messages and ends with
status -5. -/
theorem C8_failure_shows_progress_witness :
    (attempt (lib_with_status (-5)) []).status ≠ 0 ∧
      (attempt (lib_with_status (-5)) []).status ≠ openconnect_h.OC_FORM_RESULT_CANCELLED ∧
      (get_tokens openconnect_h (lib_with_status (-5)) []).tokens = none ∧
      (get_tokens openconnect_h (lib_with_status (-5)) []).shown =
        [("Connecting to VPN failed.",
          String.join (progress_messages (attempt (lib_with_status (-5)) []).calls))] :=
  ⟨by decide, by decide,
    C8_failure_shows_progress openconnect_h (lib_with_status (-5)) [] (by decide) (by decide)⟩

/-- C9: when the status of the handshake is zero, `get_tokens` returns a
dictionary with exactly three entries, `OpenConnect.ServerCert`,
`OpenConnect.Cookie` and `OpenConnect.VPNHost`, holding the peer certificate
hash, the cookie and the hostname of the session as the library gives them,
and makes no call to `show_error`. -/
theorem C9_success_three_tokens (c : OcConsts) (lib : vpn_library) (info : GHashTable)
    (hs : (attempt lib info).status = 0) :
    (get_tokens c lib info).tokens =
        some [("OpenConnect.ServerCert", (attempt lib info).peer_cert_hash),
              ("OpenConnect.Cookie", (attempt lib info).cookie),
              ("OpenConnect.VPNHost", (attempt lib info).hostname)] ∧
      (get_tokens c lib info).shown = [] := by
  have hs1 : (lib (g_hash_table_lookup info "OpenConnect.ClientCert")
      (g_hash_table_lookup info "Host")).status = 0 := hs
  simp only [get_tokens, ne_eq, hs1, not_true_eq_false, if_false, run_calls_shown, attempt]
  exact ⟨by simp [g_variant_dict_insert], trivial⟩

/-- C9 witness: the attempt of the scenario, ending with status 0. -/
theorem C9_success_three_tokens_witness :
    (attempt (lib_with_status 0) []).status = 0 ∧
      (get_tokens openconnect_h (lib_with_status 0) []).tokens =
        some [("OpenConnect.ServerCert", "AB:CD"), ("OpenConnect.Cookie", "XYZ"),
              ("OpenConnect.VPNHost", "vpn.example.com")] ∧
      (get_tokens openconnect_h (lib_with_status 0) []).shown = [] :=
  ⟨rfl, C9_success_three_tokens openconnect_h (lib_with_status 0) [] rfl⟩

/-! ## Requests with an entry that has no requirement tag -/

/-- The loop has no result on a request with an entry that carries no
requirement tag, whatever the tables it starts from. -/
theorem classify_from_untagged (ps : List Entry) :
    ∀ t : Tables, ¬ tagged ps → classify_from t ps = none := by
  induction ps with
  | nil => intro t h; exact absurd (fun e he => by simp at he) h
  | cons e rest ih =>
    intro t h
    unfold classify_from
    cases hs : classify_step t e with
    | none => rfl
    | some t1 =>
      simp only
      apply ih t1
      intro hrest
      apply h
      intro x hx
      rcases List.mem_cons.mp hx with hxe | hxr
      · subst hxe
        intro hnone
        simp [classify_step, hnone] at hs
      · exact hrest x hxr

/-- C11 at a failing input: on the request of the scenario with an entry
`Domain` in the middle that has a value but no requirement tag, the loop has
no result (`req` is `NULL` and is handed to `strcmp`), although the request
without that entry is classified with `Host` known and `Password`
required; the claim has the entry skipped and the same tables. -/
theorem C11_untagged_entry_no_result :
    req_untagged.filter (fun e => e.Requirement.isSome) = req_scenario ∧
      classify req_untagged = none ∧
      classify req_scenario =
        some { info := [("Host", some "vpn.example.com")],
               required := [("Password", none)] } :=
  ⟨by decide, rfl, rfl⟩

/-! ## The two loops of the form callback -/

/-- With distinct case labels, the prompt array holds, in order, the prompt
of each option that is neither flagged ignored nor of token kind, and
nothing else. -/
theorem build_tokens_prompted (c : OcConsts) (hc : c.cases_distinct)
    (opts : List oc_form_opt) :
    (build_tokens c opts).map some = (prompted c opts).map (opt_token c) := by
  induction opts with
  | nil => rfl
  | cons opt rest ih =>
    have h := opt_token_isSome c hc opt
    unfold build_tokens prompted
    cases ht : opt_token c opt with
    | none =>
      rw [ht] at h
      have h2 : (!ignored c opt && opt.type != c.OC_FORM_OPT_TOKEN) = false := by
        simpa using h.symm
      simp only [List.filter_cons, h2, Bool.false_eq_true, if_false]
      exact ih
    | some token =>
      rw [ht] at h
      have h2 : (!ignored c opt && opt.type != c.OC_FORM_OPT_TOKEN) = true := by
        simpa using h.symm
      simp only [List.filter_cons, h2, if_true, List.map_cons, ht]
      exact congrArg (some token :: ·) ih

/-- An option that is flagged ignored or of token kind gets no prompt. -/
theorem opt_token_none (c : OcConsts) (hc : c.cases_distinct) (opt : oc_form_opt)
    (h : ignored c opt = true ∨ opt.type = c.OC_FORM_OPT_TOKEN) :
    opt_token c opt = none := by
  have hs := opt_token_isSome c hc opt
  cases ht : opt_token c opt with
  | none => rfl
  | some token =>
    rw [ht] at hs
    rcases h with h | h
    · simp [h] at hs
    · simp [h] at hs

/-- With distinct case labels, an option that is flagged ignored or of token
kind is not assigned a value by the second loop. -/
theorem not_assigned (c : OcConsts) (hc : c.cases_distinct) (opt : oc_form_opt)
    (h : ignored c opt = true ∨ opt.type = c.OC_FORM_OPT_TOKEN) :
    assigned c opt = false := by
  obtain ⟨_, _, hsk, _, htk, hpk⟩ := (cases_distinct_iff c).mp hc
  rcases h with h | h
  · simp [assigned, h]
  · have h1 : ¬ c.OC_FORM_OPT_TOKEN = c.OC_FORM_OPT_SELECT := fun h => hsk h.symm
    have h2 : ¬ c.OC_FORM_OPT_TOKEN = c.OC_FORM_OPT_TEXT := fun h => htk h.symm
    have h3 : ¬ c.OC_FORM_OPT_TOKEN = c.OC_FORM_OPT_PASSWORD := fun h => hpk h.symm
    simp [assigned, h, h1, h2, h3]

/-- With distinct case labels, the second loop assigns to no more options
than the first loop builds prompts for. -/
theorem written_length_le (c : OcConsts) (hc : c.cases_distinct)
    (opts : List oc_form_opt) :
    (written c opts).length ≤ (build_tokens c opts).length := by
  rw [build_tokens_length c hc]
  induction opts with
  | nil => exact Nat.le_refl _
  | cons opt rest ih =>
    unfold written prompted at ih ⊢
    cases ha : assigned c opt with
    | false =>
      simp only [List.filter_cons, ha, Bool.false_eq_true, if_false]
      split
      · exact Nat.le_succ_of_le ih
      · exact ih
    | true =>
      have hp : (!ignored c opt && opt.type != c.OC_FORM_OPT_TOKEN) = true := by
        cases hq : (!ignored c opt && opt.type != c.OC_FORM_OPT_TOKEN) with
        | true => rfl
        | false =>
          have : ignored c opt = true ∨ opt.type = c.OC_FORM_OPT_TOKEN := by
            cases hi : ignored c opt with
            | true => exact Or.inl rfl
            | false =>
              right
              simpa [hi] using hq
          rw [not_assigned c hc opt this] at ha
          exact Bool.noConfusion ha
      simp only [List.filter_cons, ha, hp, if_true, List.length_cons]
      exact Nat.succ_le_succ ih

/-- The second loop, started at index `i`, completes when the array holds a
prompt for each option it assigns to. -/
theorem write_back_total (c : OcConsts) (tokens : List auth_token)
    (opts : List oc_form_opt) :
    ∀ i : Nat, i + (written c opts).length ≤ tokens.length →
      ∃ opts1, write_back c tokens i opts = some opts1 := by
  induction opts with
  | nil => intro i _; exact ⟨[], rfl⟩
  | cons opt rest ih =>
    intro i hlen
    cases hi : ignored c opt with
    | true =>
      have hw : written c (opt :: rest) = written c rest := by
        simp [written, assigned, hi]
      rw [hw] at hlen
      obtain ⟨r, hr⟩ := ih i hlen
      exact ⟨opt :: r, by simp [write_back, hi, hr]⟩
    | false =>
      by_cases hstp : opt.type = c.OC_FORM_OPT_SELECT ∨ opt.type = c.OC_FORM_OPT_TEXT ∨
          opt.type = c.OC_FORM_OPT_PASSWORD
      · have hw : written c (opt :: rest) = opt :: written c rest := by
          simp [written, assigned, hi, hstp]
        rw [hw] at hlen
        simp only [List.length_cons] at hlen
        have hlt : i < tokens.length := by omega
        obtain ⟨r, hr⟩ := ih (i + 1) (by omega)
        exact ⟨{ opt with _value := (tokens[i]).value } :: r, by
          simp only [write_back, hi, Bool.false_eq_true, if_false, if_pos hstp,
            List.getElem?_eq_getElem hlt, hr, Option.map_some']⟩
      · have hw : written c (opt :: rest) = written c rest := by
          simp [written, assigned, hi, hstp]
        rw [hw] at hlen
        obtain ⟨r, hr⟩ := ih i hlen
        exact ⟨opt :: r, by
          simp only [write_back, hi, Bool.false_eq_true, if_false, if_neg hstp, hr,
            Option.map_some']⟩

/-- The second loop keeps the options in order, changes nothing but value
slots, and leaves whole every option it does not assign to. -/
theorem write_back_frame (c : OcConsts) (tokens : List auth_token)
    (opts : List oc_form_opt) :
    ∀ (i : Nat) (opts1 : List oc_form_opt), write_back c tokens i opts = some opts1 →
      List.Forall₂ (fun o o1 => same_but_value o o1 ∧ (assigned c o = false → o1 = o))
        opts opts1 := by
  induction opts with
  | nil =>
    intro i opts1 h
    simp [write_back] at h
    subst h
    exact List.Forall₂.nil
  | cons opt rest ih =>
    intro i opts1 h
    cases hi : ignored c opt with
    | true =>
      simp only [write_back, hi, if_true] at h
      cases hr : write_back c tokens i rest with
      | none => simp [hr] at h
      | some r =>
        simp only [hr, Option.map_some', Option.some.injEq] at h
        subst h
        exact List.Forall₂.cons ⟨rfl, fun _ => rfl⟩ (ih i r hr)
    | false =>
      by_cases hstp : opt.type = c.OC_FORM_OPT_SELECT ∨ opt.type = c.OC_FORM_OPT_TEXT ∨
          opt.type = c.OC_FORM_OPT_PASSWORD
      · simp only [write_back, hi, Bool.false_eq_true, if_false, if_pos hstp] at h
        cases ht : tokens[i]? with
        | none => simp [ht] at h
        | some token =>
          simp only [ht] at h
          cases hr : write_back c tokens (i + 1) rest with
          | none => simp [hr] at h
          | some r =>
            simp only [hr, Option.map_some', Option.some.injEq] at h
            subst h
            refine List.Forall₂.cons ⟨rfl, fun ha => ?_⟩ (ih (i + 1) r hr)
            simp [assigned, hi, hstp] at ha
      · simp only [write_back, hi, Bool.false_eq_true, if_false, if_neg hstp] at h
        cases hr : write_back c tokens i rest with
        | none => simp [hr] at h
        | some r =>
          simp only [hr, Option.map_some', Option.some.injEq] at h
          subst h
          exact List.Forall₂.cons ⟨rfl, fun _ => rfl⟩ (ih i r hr)

/-- On a form whose options are all of the four kinds, with distinct case
labels, the options the second loop assigns to are the options the first
loop builds prompts for. -/
theorem written_eq_prompted (c : OcConsts) (hc : c.cases_distinct)
    (opts : List oc_form_opt) (h4 : four_kinds c opts) :
    written c opts = prompted c opts := by
  unfold written prompted
  apply List.filter_congr
  intro opt hopt
  cases hi : ignored c opt with
  | true => simp [assigned, hi]
  | false =>
    by_cases hk : opt.type = c.OC_FORM_OPT_TOKEN
    · rw [not_assigned c hc opt (Or.inr hk)]
      simp [hk]
    · have hstp : opt.type = c.OC_FORM_OPT_SELECT ∨ opt.type = c.OC_FORM_OPT_TEXT ∨
          opt.type = c.OC_FORM_OPT_PASSWORD := by
        rcases h4 opt hopt with h | h | h | h
        · exact Or.inl h
        · exact Or.inr (Or.inl h)
        · exact Or.inr (Or.inr h)
        · exact absurd h hk
      simp [assigned, hi, hstp, hk]

/-- C12: on a form whose options are each of select, text, password or
token kind, the prompt array `ask_pass` hands to the asker holds, in the
order of the options, exactly the prompt of each option that is neither
flagged ignored nor of token kind (each of them a select, text or password
option); an option flagged ignored, whatever its kind, and a token option
get no prompt. -/
theorem C12_one_prompt_per_prompted_option (c : OcConsts) (hc : c.cases_distinct)
    (form : oc_auth_form) (h4 : four_kinds c form.opts) :
    (build_tokens c form.opts).map some = (prompted c form.opts).map (opt_token c) ∧
    (build_tokens c form.opts).length = (prompted c form.opts).length ∧
    (∀ opt ∈ prompted c form.opts, opt.type = c.OC_FORM_OPT_SELECT ∨
      opt.type = c.OC_FORM_OPT_TEXT ∨ opt.type = c.OC_FORM_OPT_PASSWORD) ∧
    (∀ opt ∈ form.opts, ignored c opt = true ∨ opt.type = c.OC_FORM_OPT_TOKEN →
      opt_token c opt = none) ∧
    (∀ (ask_tokens : token_asker) (r : ask_pass_result),
      ask_pass c ask_tokens form = some r → r.asked = [build_tokens c form.opts]) := by
  refine ⟨build_tokens_prompted c hc form.opts, build_tokens_length c hc form.opts, ?_,
    fun opt _ h => opt_token_none c hc opt h, ?_⟩
  · intro opt hopt
    rw [← written_eq_prompted c hc form.opts h4] at hopt
    have ha : assigned c opt = true := (List.mem_filter.mp hopt).2
    simp only [assigned, Bool.and_eq_true, decide_eq_true_eq] at ha
    exact ha.2
  · intro ask_tokens r h
    unfold ask_pass at h
    cases ha : ask_tokens (build_tokens c form.opts) with
    | mk b answered =>
      simp only [ha] at h
      cases b with
      | false =>
        simp only [Option.some.injEq] at h
        rw [← h]
      | true =>
        simp only at h
        cases hw : write_back c answered 0 form.opts with
        | none => simp [hw] at h
        | some opts1 =>
          simp only [hw, Option.some.injEq] at h
          rw [← h]

/-- C12 witness: a form with an ignored text option, a token option, a
selection option and a masked option, with the constants of the library
header; two prompts are built. -/
theorem C12_one_prompt_per_prompted_option_witness :
    openconnect_h.cases_distinct ∧ four_kinds openconnect_h form_mixed.opts ∧
      (build_tokens openconnect_h form_mixed.opts).map some =
        (prompted openconnect_h form_mixed.opts).map (opt_token openconnect_h) ∧
      (build_tokens openconnect_h form_mixed.opts).length = 2 :=
  ⟨by decide, by decide,
    (C12_one_prompt_per_prompted_option openconnect_h (by decide) form_mixed (by decide)).1,
    rfl⟩

/-- C13: `ask_pass` calls the asker exactly once, with the prompt array.
When the asker returns FALSE, `ask_pass` returns the cancelled code and the
form is as it was, every value slot included; when the asker returns TRUE
(leaving the array at its length), `ask_pass` returns the OK code. -/
theorem C13_asker_called_once (c : OcConsts) (hc : c.cases_distinct)
    (ask_tokens : token_asker) (form : oc_auth_form)
    (hlen : (ask_tokens (build_tokens c form.opts)).1 = true →
      (ask_tokens (build_tokens c form.opts)).2.length =
        (build_tokens c form.opts).length) :
    ∃ r, ask_pass c ask_tokens form = some r ∧
      r.asked = [build_tokens c form.opts] ∧
      ((ask_tokens (build_tokens c form.opts)).1 = false →
        r.ret = c.OC_FORM_RESULT_CANCELLED ∧ r.form = form) ∧
      ((ask_tokens (build_tokens c form.opts)).1 = true →
        r.ret = c.OC_FORM_RESULT_OK) := by
  cases ha : ask_tokens (build_tokens c form.opts) with
  | mk b answered =>
    rw [ha] at hlen
    cases b with
    | false =>
      refine ⟨{ ret := c.OC_FORM_RESULT_CANCELLED, form := form,
                asked := [build_tokens c form.opts] }, ?_, rfl, fun _ => ⟨rfl, rfl⟩, ?_⟩
      · simp only [ask_pass, ha]
      · intro h
        exact Bool.noConfusion h
    | true =>
      have hl : answered.length = (build_tokens c form.opts).length := hlen rfl
      have hle := written_length_le c hc form.opts
      obtain ⟨opts1, hw⟩ := write_back_total c answered form.opts 0 (by omega)
      refine ⟨{ ret := c.OC_FORM_RESULT_OK, form := { form with opts := opts1 },
                asked := [build_tokens c form.opts] }, ?_, rfl, ?_, fun _ => rfl⟩
      · simp only [ask_pass, ha, hw]
      · intro h
        exact Bool.noConfusion h

/-- C13 witness: the form of the scenario answered with "alice" and
"s3cr3t", with the constants of the library header. -/
theorem C13_asker_called_once_witness :
    openconnect_h.cases_distinct ∧
      ((answer_with ["alice", "s3cr3t"] (build_tokens openconnect_h form_scenario.opts)).1
          = true →
        (answer_with ["alice", "s3cr3t"]
            (build_tokens openconnect_h form_scenario.opts)).2.length =
          (build_tokens openconnect_h form_scenario.opts).length) ∧
      ∃ r, ask_pass openconnect_h (answer_with ["alice", "s3cr3t"]) form_scenario = some r ∧
        r.asked = [build_tokens openconnect_h form_scenario.opts] ∧
        ((answer_with ["alice", "s3cr3t"]
            (build_tokens openconnect_h form_scenario.opts)).1 = false →
          r.ret = openconnect_h.OC_FORM_RESULT_CANCELLED ∧ r.form = form_scenario) ∧
        ((answer_with ["alice", "s3cr3t"]
            (build_tokens openconnect_h form_scenario.opts)).1 = true →
          r.ret = openconnect_h.OC_FORM_RESULT_OK) :=
  ⟨by decide, fun _ => rfl,
    C13_asker_called_once openconnect_h (by decide) (answer_with ["alice", "s3cr3t"])
      form_scenario (fun _ => rfl)⟩

/-- C14: the write-back pass of `ask_pass` completes when the array holds a
prompt for each option it assigns to, and, for every array, the options
after the pass are the options before it, in the same order, each with the
same name, label, type, flags and choices, and with the same value when the
option is flagged ignored or is of token kind. -/
theorem C14_write_back_frame_effect (c : OcConsts) (hc : c.cases_distinct)
    (tokens : List auth_token) (opts : List oc_form_opt) :
    ((written c opts).length ≤ tokens.length →
      ∃ opts1, write_back c tokens 0 opts = some opts1) ∧
    ∀ opts1, write_back c tokens 0 opts = some opts1 →
      List.Forall₂
        (fun o o1 => same_but_value o o1 ∧
          (ignored c o = true ∨ o.type = c.OC_FORM_OPT_TOKEN → o1._value = o._value))
        opts opts1 := by
  constructor
  · intro hlen
    exact write_back_total c tokens opts 0 (by omega)
  · intro opts1 h
    refine List.Forall₂.imp ?_ (write_back_frame c tokens opts 0 opts1 h)
    rintro o o1 ⟨hs, hu⟩
    refine ⟨hs, fun hio => ?_⟩
    rw [hu (not_assigned c hc o hio)]

/-- C14 witness: the mixed form with the constants of the library header
and two answered prompts; the ignored option and the token option keep their
values "n" and "t". -/
theorem C14_write_back_frame_effect_witness :
    openconnect_h.cases_distinct ∧
      (∃ opts1,
        write_back openconnect_h
          (answer_with ["2", "s3cr3t"] (build_tokens openconnect_h form_mixed.opts)).2 0
          form_mixed.opts = some opts1 ∧
        opts1.map (fun o => o._value) = [some "n", some "t", some "2", some "s3cr3t"]) ∧
      ∀ opts1,
        write_back openconnect_h
          (answer_with ["2", "s3cr3t"] (build_tokens openconnect_h form_mixed.opts)).2 0
          form_mixed.opts = some opts1 →
        List.Forall₂
          (fun o o1 => same_but_value o o1 ∧
            (ignored openconnect_h o = true ∨ o.type = openconnect_h.OC_FORM_OPT_TOKEN →
              o1._value = o._value))
          form_mixed.opts opts1 :=
  ⟨by decide, ⟨_, rfl, rfl⟩,
    (C14_write_back_frame_effect openconnect_h (by decide)
      (answer_with ["2", "s3cr3t"] (build_tokens openconnect_h form_mixed.opts)).2
      form_mixed.opts).2⟩

/-- C15 at a failing input: with the constants of the library header, on the
login form with an option of type code 4 between `username` and `password`,
the first loop builds three prompts and the second loop assigns to two
options.  With the answers "alice", "" and "s3cr3t", `ask_pass` returns the
OK code with "alice" in `username`, the option of type 4 untouched, and ""
(the answer to the second prompt, built from the option of type 4) in
`password`; the answer "s3cr3t" to the third prompt, built from `password`,
is written nowhere. -/
theorem C15_prompt_count_exceeds_written :
    (build_tokens openconnect_h form_hidden_middle.opts).length = 3 ∧
      (written openconnect_h form_hidden_middle.opts).length = 2 ∧
      (build_tokens openconnect_h form_hidden_middle.opts).map (fun t => t.label) =
        [some "Username", none, some "Password"] ∧
      ∃ r, ask_pass openconnect_h (answer_with ["alice", "", "s3cr3t"]) form_hidden_middle
          = some r ∧
        r.ret = openconnect_h.OC_FORM_RESULT_OK ∧
        r.form.opts.map (fun opt => (opt.name, opt._value)) =
          [("username", some "alice"), ("csrf", some "k9"), ("password", some "")] :=
  ⟨rfl, rfl, rfl, _, rfl, rfl, rfl⟩

end OpenconnectHelper
